import Mathlib

/-!
Verification of the discovery-and-resolution pipeline of the vanguard backend
(Go sources under `backend/services` and `backend/api`).

The Go code is shallowly embedded: strings are modelled at the rune (Char)
level, `float64` confidence scores as `Rat`, the `error` values of Go as structured
inductive types, the process-wide email cache as an association list together
with an explicit `now : Nat` clock, and each external HTTP interaction as an
oracle value (or function) describing the one response the network would give.
Log output (`log.Printf`, the `Logs` accumulation of the handler) is not modelled;
no claim mentions it.
-/

namespace Vanguard

/-! ## Character-level string helpers (Go `strings` package) -/

/-- Whether `pat` is a leading segment of `s` (Go `strings.HasPrefix`, on runes). -/
def startsWithChars : List Char → List Char → Bool
  | _, [] => true
  | [], _ :: _ => false
  | a :: as, b :: bs => a = b && startsWithChars as bs

/-- Index (in runes) of the first occurrence of `pat` in `s`
(Go `strings.Index`; `none` where Go returns `-1`). -/
def idxOfSub (s pat : List Char) : Option Nat :=
  if startsWithChars s pat then some 0
  else
    match s with
    | [] => none
    | _ :: tail => (idxOfSub tail pat).map (· + 1)

/-- Index (in runes) of the last occurrence of `pat` in `s` (Go `strings.LastIndex`). -/
def lastIdxOfSub (s pat : List Char) : Option Nat :=
  match s with
  | [] => if startsWithChars [] pat then some 0 else none
  | _ :: tail =>
    match lastIdxOfSub tail pat with
    | some i => some (i + 1)
    | none => if startsWithChars s pat then some 0 else none

/-- Go `strings.Contains`. -/
def goContains (s sub : String) : Bool :=
  (idxOfSub s.data sub.data).isSome

/-- Go `strings.Index` on strings, rune-indexed. -/
def goIndex (s sub : String) : Option Nat :=
  idxOfSub s.data sub.data

/-- First `n` runes of `s` (Go slice `s[:n]`, rune-level). -/
def strTake (s : String) (n : Nat) : String :=
  ⟨s.data.take n⟩

/-- All but the first `n` runes of `s` (Go slice `s[n:]`, rune-level). -/
def strDrop (s : String) (n : Nat) : String :=
  ⟨s.data.drop n⟩

/-- Go `strings.TrimSpace`. -/
def goTrim (s : String) : String :=
  ⟨((s.data.dropWhile Char.isWhitespace).reverse.dropWhile Char.isWhitespace).reverse⟩

/-- Go `strings.ToLower` (ASCII letters; the sources only compare ASCII text). -/
def goToLower (s : String) : String :=
  ⟨s.data.map Char.toLower⟩

/-- Go `strings.TrimSuffix`. -/
def goTrimSuffix (s suffix : String) : String :=
  let n := s.data.length
  let m := suffix.data.length
  if m ≤ n ∧ s.data.drop (n - m) = suffix.data then ⟨s.data.take (n - m)⟩ else s

/-- Split at the first occurrence of `sep`: Go `strings.SplitN(s, sep, 2)`
as the pair `(parts[0], parts[1])`; when `sep` does not occur the second
component is `""` (the sources only use it after a `strings.Contains` guard). -/
def goSplitFirst (s sep : String) : String × String :=
  match goIndex s sep with
  | some i => (strTake s i, strDrop s (i + sep.data.length))
  | none => (s, "")

/-- Helper for `goFields`: split into maximal non-whitespace runs. -/
def fieldsAux : List Char → List Char → List (List Char)
  | [], acc => if acc = [] then [] else [acc.reverse]
  | c :: cs, acc =>
    if c.isWhitespace then
      if acc = [] then fieldsAux cs [] else acc.reverse :: fieldsAux cs []
    else fieldsAux cs (c :: acc)

/-- Go `strings.Fields`. -/
def goFields (s : String) : List String :=
  (fieldsAux s.data []).map fun l => ⟨l⟩

/-- Helper for `goSplitComma`. -/
def splitCommaAux : List Char → List Char → List (List Char)
  | [], acc => [acc.reverse]
  | c :: cs, acc =>
    if c = ',' then acc.reverse :: splitCommaAux cs [] else splitCommaAux cs (c :: acc)

/-- Go `strings.Split(s, ",")` (keeps empty pieces). -/
def goSplitComma (s : String) : List String :=
  (splitCommaAux s.data []).map fun l => ⟨l⟩

/-! ## Provider errors

Go `error` values are modelled structurally; the exact `fmt.Errorf` texts that
carry no data are kept as constructor documentation, and the HTTP-status
message assembly (which does build strings) is embedded as written. -/

inductive ResolveErr where
  /-- "ANYMAIL_API_KEY not set" -/
  | anymailNoKey
  /-- transport failure of `http.DefaultClient.Do` -/
  | anymailTransport (msg : String)
  /-- "Anymail: %s" for a non-200 status -/
  | anymailHTTP (msg : String)
  /-- "Anymail parse error: %w" -/
  | anymailParse
  /-- "Anymail: person not found" -/
  | anymailNotFound
  /-- "Anymail: email/domain is blacklisted" -/
  | anymailBlacklisted
  /-- "Anymail: found risky email (discarding to protect sender reputation)" -/
  | anymailRisky
  /-- "Anymail: no verified email returned" -/
  | anymailNoEmail
  /-- "Anymail: score too low (%.0f%%)" -/
  | anymailScoreTooLow (conf : Rat)
  /-- "HUNTER_API_KEY not set" -/
  | hunterNoKey
  /-- "invalid name" -/
  | hunterInvalidName
  /-- transport failure of `http.Get` -/
  | hunterTransport (msg : String)
  /-- `json.Unmarshal` failure -/
  | hunterParse
  /-- "Hunter error: %s" with the details of the first error -/
  | hunterAPI (details : String)
  /-- "Hunter: no email found" -/
  | hunterNoEmail
  deriving Repr, DecidableEq

/-! ## Resolution cache (`services`, email cache file: `GetCachedEmail` / `SetCachedEmail`)

`emailCache` is a process-wide Go map; it is modelled as an association list
where writing prepends (lookup sees the newest binding, matching map
overwrite).  `time.Now` / `time.Since` are modelled by an explicit `now : Nat`
clock in seconds; `CachedAt` stores the clock at write time. -/

structure CacheEntry where
  Email : String
  Confidence : Rat
  Err : Option ResolveErr
  CachedAt : Nat
  deriving Repr, DecidableEq

abbrev EmailCache := List (String × CacheEntry)

/-- `cacheKey`: `"fullname|company"`, lower-cased and trimmed. -/
def cacheKey (fullName company : String) : String :=
  goToLower (goTrim fullName) ++ "|" ++ goToLower (goTrim company)

/-- `cacheTTL = 24 * time.Hour`, in seconds. -/
def cacheTTL : Nat := 24 * 60 * 60

/-- Lookup in the association-list model of the Go map. -/
def lookupCache : EmailCache → String → Option CacheEntry
  | [], _ => none
  | (k, e) :: rest, key => if k = key then some e else lookupCache rest key

/-- `GetCachedEmail` returns a cached result if still fresh, plus a found boolean. -/
def GetCachedEmail (cache : EmailCache) (now : Nat) (fullName company : String) :
    String × Rat × Bool :=
  match lookupCache cache (cacheKey fullName company) with
  | none => ("", 0, false)
  | some e => if cacheTTL < now - e.CachedAt then ("", 0, false) else (e.Email, e.Confidence, true)

/-- `SetCachedEmail` stores the result (map overwrite = shadowing prepend). -/
def SetCachedEmail (cache : EmailCache) (now : Nat) (fullName company email : String)
    (confidence : Rat) (err : Option ResolveErr) : EmailCache :=
  (cacheKey fullName company, ⟨email, confidence, err, now⟩) :: cache

/-! ## Targeting policy (`services/headcount.go`)

The source file carries two versions of `GetTargetRolesByHeadcount`.  The
first (primary) version is embedded under the source name; the second,
which adds the `headcount < 25` rejection but drops the "Founder" role,
is embedded as `GetTargetRolesByHeadcountAlt`. -/

structure HeadcountBand where
  Label : String
  Roles : List String
  deriving Repr, DecidableEq

/-- `GetTargetRolesByHeadcount` (primary version, file lines 18–39). -/
def GetTargetRolesByHeadcount (headcount : Int) : Option HeadcountBand :=
  if headcount < 50 then
    some ⟨"< 50", ["CEO", "Founder", "Partner", "CIO"]⟩
  else if headcount ≤ 200 then
    some ⟨"50-200", ["HR Director"]⟩
  else if headcount ≤ 500 then
    some ⟨"200-500", ["Early Careers Head", "HR Director"]⟩
  else
    none

/-- `GetTargetRolesByHeadcount` (second version in the file, lines 57–81). -/
def GetTargetRolesByHeadcountAlt (headcount : Int) : Option HeadcountBand :=
  if headcount < 25 then
    none
  else if headcount < 50 then
    some ⟨"Micro (25–49)", ["CEO", "Partner", "CIO"]⟩
  else if headcount < 200 then
    some ⟨"Small (50–199)", ["HR Director"]⟩
  else if headcount ≤ 500 then
    some ⟨"Mid-size (200–500)", ["Early Careers Head", "HR Director"]⟩
  else
    none

/-! ## Anymail person lookup (`services/anymail.go`, `FindEmailAnymailByCompany`) -/

/-- Parsed body of a 200 response (`anymailResp`). -/
structure AnymailResp where
  Email : String
  EmailStatus : String
  ValidEmail : String
  Score : Rat
  Confidence : Rat
  deriving Repr, DecidableEq

/-- Outcome of the one HTTP exchange `FindEmailAnymailByCompany` may perform. -/
inductive AnymailNetOutcome where
  | transportErr (msg : String)
  | httpErr (status : Nat) (errField explainedField messageField : String)
  | parseErr
  | ok (resp : AnymailResp)
  deriving Repr

/-- Environment of the Anymail person endpoint: the `ANYMAIL_API_KEY` value and,
per `(fullName, companyName)` request, the response of the network. -/
structure AnymailEnv where
  apiKey : String
  response : String → String → AnymailNetOutcome

/-- Error-message assembly for a non-200 person-endpoint response
(`anymail.go` lines 59–89). -/
def anymailHTTPMsg (status : Nat) (errField explainedField messageField : String) : String :=
  let msg := errField
  let msg := if explainedField ≠ "" then msg ++ " — " ++ explainedField else msg
  let msg := if msg = "" then messageField else msg
  if msg ≠ "" then msg
  else if status = 400 then "Bad Request (check input format)"
  else if status = 401 then "Unauthorized (check Anymail API key)"
  else if status = 402 then "Payment Needed (out of credits)"
  else if status = 429 then "Too Many Requests (rate limit exceeded)"
  else "HTTP " ++ toString status

/-- The `conf` normalisation: `conf := data.Score; if conf == 0 { conf = data.Confidence }`. -/
def anymailEffectiveConf (r : AnymailResp) : Rat :=
  if r.Score = 0 then r.Confidence else r.Score

/-- Handling of a 200 person-endpoint body (`anymail.go` lines 97–129,
without the cache write). -/
def anymailHandleOK (r : AnymailResp) : Except ResolveErr (String × Rat) :=
  if r.EmailStatus = "not_found" then .error .anymailNotFound
  else if r.EmailStatus = "blacklisted" then .error .anymailBlacklisted
  else if r.EmailStatus = "risky" then .error .anymailRisky
  else
    let em := if r.ValidEmail ≠ "" then r.ValidEmail else r.Email
    if em = "" then .error .anymailNoEmail
    else
      let conf := anymailEffectiveConf r
      if conf < mkRat 1 2 then .error (.anymailScoreTooLow conf)
      else .ok (goToLower (goTrim em), conf)

/-- Result of one network exchange of the person endpoint. -/
def anymailNetResult (o : AnymailNetOutcome) : Except ResolveErr (String × Rat) :=
  match o with
  | .transportErr m => .error (.anymailTransport m)
  | .httpErr status e ex msg => .error (.anymailHTTP (anymailHTTPMsg status e ex msg))
  | .parseErr => .error .anymailParse
  | .ok r => anymailHandleOK r

/-- Result of one call to a single-person provider function: the returned
`(email, confidence)` or error, the cache afterwards, and how many network
calls were issued (0 or 1). -/
structure ProviderCallResult where
  result : Except ResolveErr (String × Rat)
  cache : EmailCache
  netCalls : Nat
  deriving Repr

/-- `FindEmailAnymailByCompany`: cache check, then one Anymail person-endpoint
call; a successful result is written back to the cache, a failure is not. -/
def FindEmailAnymailByCompany (env : AnymailEnv) (cache : EmailCache) (now : Nat)
    (fullName companyName : String) : ProviderCallResult :=
  match GetCachedEmail cache now fullName companyName with
  | (email, conf, true) => ⟨.ok (email, conf), cache, 0⟩
  | (_, _, false) =>
    if env.apiKey = "" then ⟨.error .anymailNoKey, cache, 0⟩
    else
      match anymailNetResult (env.response fullName companyName) with
      | .ok (email, conf) =>
        ⟨.ok (email, conf), SetCachedEmail cache now fullName companyName email conf none, 1⟩
      | .error e => ⟨.error e, cache, 1⟩

/-! ## Hunter person lookup (`services/hunter.go`, `FindEmailHunter`) -/

/-- Parsed body of the Hunter email-finder response (`hunterEmailFinderResp`):
`data.email`, `data.score`, and the `errors[*].details` list. -/
structure HunterResp where
  Email : String
  Score : Int
  Errors : List String
  deriving Repr, DecidableEq

/-- Outcome of the one HTTP exchange `FindEmailHunter` may perform. -/
inductive HunterNetOutcome where
  | transportErr (msg : String)
  | parseErr
  | ok (resp : HunterResp)
  deriving Repr

/-- Environment of the Hunter email finder. -/
structure HunterEnv where
  apiKey : String
  response : String → String → HunterNetOutcome

/-- `FindEmailHunter`: cache check, name-fields check, then one Hunter call.
No confidence threshold is applied; `conf = score / 100`. -/
def FindEmailHunter (env : HunterEnv) (cache : EmailCache) (now : Nat)
    (fullName domain : String) : ProviderCallResult :=
  match GetCachedEmail cache now fullName domain with
  | (email, conf, true) => ⟨.ok (email, conf), cache, 0⟩
  | (_, _, false) =>
    if env.apiKey = "" then ⟨.error .hunterNoKey, cache, 0⟩
    else if goFields fullName = [] then ⟨.error .hunterInvalidName, cache, 0⟩
    else
      match env.response fullName domain with
      | .transportErr m => ⟨.error (.hunterTransport m), cache, 1⟩
      | .parseErr => ⟨.error .hunterParse, cache, 1⟩
      | .ok r =>
        match r.Errors with
        | d :: _ => ⟨.error (.hunterAPI d), cache, 1⟩
        | [] =>
          let email := r.Email
          let conf : Rat := Rat.divInt r.Score 100
          if email = "" then ⟨.error .hunterNoEmail, cache, 1⟩
          else ⟨.ok (email, conf), SetCachedEmail cache now fullName domain email conf none, 1⟩

/-! ## The single-person waterfall (`api/handlers.go`, `findEmailHandler`,
`default:` ("person") branch, lines 642–693) -/

inductive FindEmailResp where
  /-- 400: "full_name and company are required for Person search." -/
  | badRequest (msg : String)
  /-- 200 with an email, its confidence, and the `Source` string -/
  | success (email : String) (confidence : Rat) (source : String)
  /-- 200 with only logs and `Error: err.Error()` -/
  | noResult (err : ResolveErr)
  /-- the Go code calls `err.Error()` with `err == nil` (provider returned a
  nil error together with an empty email, possible via a negative cache hit) -/
  | panicNilErr
  deriving Repr, DecidableEq

structure HandlerResult where
  resp : FindEmailResp
  cache : EmailCache
  anymailCalls : Nat
  hunterCalls : Nat
  deriving Repr

/-- Step 2 of the waterfall: the Hunter.io fallback and the final response. -/
def findEmailHunterPhase (hEnv : HunterEnv) (cache : EmailCache) (now : Nat)
    (fullName company : String) (anymailCalls : Nat) : HandlerResult :=
  let h := FindEmailHunter hEnv cache now fullName company
  match h.result with
  | .ok (email, conf) =>
    if email ≠ "" then ⟨.success email conf "Hunter.io", h.cache, anymailCalls, h.netCalls⟩
    else ⟨.panicNilErr, h.cache, anymailCalls, h.netCalls⟩
  | .error e => ⟨.noResult e, h.cache, anymailCalls, h.netCalls⟩

/-- The person branch of `findEmailHandler`: Anymail first, Hunter second,
stopping at the first non-empty email. -/
def findEmailPersonHandler (aEnv : AnymailEnv) (hEnv : HunterEnv) (cache : EmailCache)
    (now : Nat) (fullName company : String) : HandlerResult :=
  if fullName = "" ∨ company = "" then
    ⟨.badRequest "full_name and company are required for Person search.", cache, 0, 0⟩
  else
    let a := FindEmailAnymailByCompany aEnv cache now fullName company
    match a.result with
    | .ok (email, conf) =>
      if email ≠ "" then ⟨.success email conf "Anymail Finder", a.cache, a.netCalls, 0⟩
      else findEmailHunterPhase hEnv a.cache now fullName company a.netCalls
    | .error _ => findEmailHunterPhase hEnv a.cache now fullName company a.netCalls

/-! ## Anymail bulk company search and decision-maker search
(`services/anymail.go`, `FindEmailsAnymailByCompanyDomain`, `FindDecisionMakerAnymail`) -/

/-- The richer result record (`AnymailLinkedInResult`). -/
structure AnymailLinkedInResult where
  Email : String
  EmailStatus : String
  FullName : String
  JobTitle : String
  Company : String
  ValidEmail : String
  deriving Repr, DecidableEq

/-- One entry of `AnymailCompanyResult.Emails`. -/
structure AnymailCompanyEntry where
  Email : String
  EmailStatus : String
  ValidEmail : String
  JobTitle : String
  FullName : String
  deriving Repr, DecidableEq

/-- Errors of the list-returning Anymail endpoints. -/
inductive CompanyListErr where
  /-- "ANYMAIL_API_KEY not set" -/
  | noKey
  /-- transport failure -/
  | transport (msg : String)
  /-- "Anymail Company API: %s" / "Anymail Decision Maker API: %s" -/
  | http (msg : String)
  /-- `json.Unmarshal` failure -/
  | parse
  /-- "no verified emails found for this company" /
  "no verified decision makers found at this company for the requested roles" -/
  | noneFound
  deriving Repr, DecidableEq

/-- Outcome of the one HTTP exchange of a list-returning endpoint. -/
inductive CompanyNetOutcome where
  | transportErr (msg : String)
  | httpErr (status : Nat) (errField explainedField : String)
  | parseErr
  | ok (entries : List AnymailCompanyEntry)
  deriving Repr

/-- Error-message assembly for a non-200 company-endpoint response
(`anymail.go` lines 266–289; the decision-maker endpoint differs only in the
default 400 text, which carries no data used by any claim). -/
def companyHTTPMsg (status : Nat) (errField explainedField : String) : String :=
  let msg := errField
  let msg := if explainedField ≠ "" then msg ++ " — " ++ explainedField else msg
  if msg ≠ "" then msg
  else if status = 400 then "Bad Request (check company/domain format)"
  else if status = 401 then "Unauthorized (check Anymail API key)"
  else if status = 402 then "Payment Needed (out of credits)"
  else "HTTP " ++ toString status

/-- The per-entry mapping of the retention loops (`anymail.go` lines 298–321
and 399–421): the address, preferring `valid_email`, lower-cased and trimmed. -/
def anymailEntryResult (domainOrCompany : String) (e : AnymailCompanyEntry) :
    AnymailLinkedInResult :=
  let email := if e.ValidEmail = "" then e.Email else e.ValidEmail
  ⟨goToLower (goTrim email), e.EmailStatus, e.FullName, e.JobTitle, domainOrCompany, email⟩

/-- The retention loop shared verbatim by the company and decision-maker
endpoints: an entry is kept unless its `email_status` is not "valid" while its
`valid_email` is empty, and unless the preferred address is empty. -/
def anymailCollectValid (domainOrCompany : String) :
    List AnymailCompanyEntry → List AnymailLinkedInResult
  | [] => []
  | e :: rest =>
    if e.EmailStatus ≠ "valid" ∧ e.ValidEmail = "" then
      anymailCollectValid domainOrCompany rest
    else
      let email := if e.ValidEmail = "" then e.Email else e.ValidEmail
      if email = "" then anymailCollectValid domainOrCompany rest
      else anymailEntryResult domainOrCompany e :: anymailCollectValid domainOrCompany rest

/-- Environment of the bulk company-search endpoint. -/
structure AnymailCompanyEnv where
  apiKey : String
  outcome : CompanyNetOutcome

/-- `FindEmailsAnymailByCompanyDomain`. -/
def FindEmailsAnymailByCompanyDomain (env : AnymailCompanyEnv) (domainOrCompany : String) :
    Except CompanyListErr (List AnymailLinkedInResult) :=
  if env.apiKey = "" then .error .noKey
  else
    match env.outcome with
    | .transportErr m => .error (.transport m)
    | .httpErr status e ex => .error (.http (companyHTTPMsg status e ex))
    | .parseErr => .error .parse
    | .ok entries =>
      let validResults := anymailCollectValid domainOrCompany entries
      if validResults = [] then .error .noneFound else .ok validResults

/-- Environment of the decision-maker endpoint; the response may depend on the
`job_titles` array sent in the request body. -/
structure AnymailDMEnv where
  apiKey : String
  outcome : List String → CompanyNetOutcome

/-- `FindDecisionMakerAnymail`: splits `roles` on commas into trimmed job
titles for the request, then retains entries exactly as the company search. -/
def FindDecisionMakerAnymail (env : AnymailDMEnv) (domainOrCompany roles : String) :
    Except CompanyListErr (List AnymailLinkedInResult) :=
  if env.apiKey = "" then .error .noKey
  else
    let roleTokens := (goSplitComma roles).map goTrim
    match env.outcome roleTokens with
    | .transportErr m => .error (.transport m)
    | .httpErr status e ex => .error (.http (companyHTTPMsg status e ex))
    | .parseErr => .error .parse
    | .ok entries =>
      let validResults := anymailCollectValid domainOrCompany entries
      if validResults = [] then .error .noneFound else .ok validResults

/-! ## Query builder (`services/pipeline.go`, `SmartLinkedInQuery`) -/

/-- `SmartLinkedInQuery` builds `"Title" "Company" site:linkedin.com/in`,
first dropping each legal suffix (once, in order) from the company name and
trimming whitespace. -/
def SmartLinkedInQuery (jobTitle company : String) : String :=
  let co := [" PLC", " Ltd", " Limited", " LLC", " Inc", " Corp", " Group", " Holdings"].foldl
    goTrimSuffix company
  let co := goTrim co
  "\"" ++ jobTitle ++ "\" \"" ++ co ++ "\" site:linkedin.com/in"

/-! ## Result parser (`services/pipeline.go`, `parseLinkedInTitle`) -/

/-- The leading suffix removal: truncate at the last occurrence of
`" | LinkedIn"`, then of `"- LinkedIn"` (`pipeline.go` lines 135–139). -/
def stripLinkedInBranding (titleStr : String) : String :=
  let t :=
    match lastIdxOfSub titleStr.data (" | LinkedIn" : String).data with
    | some i => strTake titleStr i
    | none => titleStr
  match lastIdxOfSub t.data ("- LinkedIn" : String).data with
  | some i => strTake t i
  | none => t

/-- The title-text analysis (`pipeline.go` lines 132–171): trims, strips the
branding suffixes, then follows the dash / pipe / bare-name cascade.
Returns `(name, title, company)` with `company` defaulting to
`fallbackCompany`. -/
def parseTitlePhase (titleStr fallbackCompany : String) : String × String × String :=
  let t := stripLinkedInBranding (goTrim titleStr)
  if goContains t " - " then
    let p := goSplitFirst t " - "
    let name := goTrim p.1
    let rest := goTrim p.2
    if goContains rest " | " then
      let q := goSplitFirst rest " | "
      let c := goTrim q.2
      (name, goTrim q.1, if c ≠ "" then c else fallbackCompany)
    else if goContains rest " at " then
      let q := goSplitFirst rest " at "
      let c := goTrim q.2
      (name, goTrim q.1, if c ≠ "" then c else fallbackCompany)
    else (name, rest, fallbackCompany)
  else if goContains t " | " then
    let p := goSplitFirst t " | "
    (goTrim p.1, goTrim p.2, fallbackCompany)
  else (t, "", fallbackCompany)

/-- The snippet fallback (`pipeline.go` lines 174–184): locate `" at "` in the
lower-cased snippet, trim the following text, cut at the first period only when
it occurs within the first 40 runes, and accept the candidate only when it is
non-empty and shorter than 60 runes. -/
def snippetFallback (snippet fallbackCompany : String) : String :=
  match goIndex (goToLower snippet) " at " with
  | none => fallbackCompany
  | some idx =>
    let candidate := goTrim (strDrop snippet (idx + 4))
    let candidate :=
      match goIndex candidate "." with
      | some dot => if dot < 40 then goTrim (strTake candidate dot) else candidate
      | none => candidate
    if candidate ≠ "" ∧ candidate.length < 60 then candidate else fallbackCompany

/-- `parseLinkedInTitle`: title analysis, snippet fallback when the company is
still the fallback, and final `" | LinkedIn"` suffix strips. -/
def parseLinkedInTitle (titleStr snippet fallbackCompany : String) :
    String × String × String :=
  let r := parseTitlePhase titleStr fallbackCompany
  let company :=
    if r.2.2 = fallbackCompany ∧ snippet ≠ "" then snippetFallback snippet fallbackCompany
    else r.2.2
  (r.1, goTrimSuffix (goTrim r.2.1) " | LinkedIn", goTrimSuffix (goTrim company) " | LinkedIn")

/-! ## Pipeline orchestrator (`services/pipeline.go`, `FindPeopleAtCompanies`) -/

/-- One search result from `SerpGoogle`. -/
structure SerpResult where
  Title : String
  Link : String
  Snippet : String
  deriving Repr, DecidableEq

/-- The fields of `models.PersonRow` the pipeline populates. -/
structure PersonRow where
  Name : String
  Title : String
  Company : String
  Link : String
  Email : String
  Confidence : Rat
  Source : String
  deriving Repr, DecidableEq

/-- Environment of the pipeline: the search provider (a query and a
max-results bound give results or a transport error) and the Anymail person
provider used for email resolution. -/
structure PipelineEnv where
  serp : String → Nat → Except String (List SerpResult)
  anymail : AnymailEnv

/-- Mutable state threaded through `FindPeopleAtCompanies`: the `seen`
link set, the accumulated `out` rows, the email cache, and instrumentation
counting search- and email-provider network calls. -/
structure PipeState where
  seen : List String
  out : List PersonRow
  cache : EmailCache
  serpCalls : Nat
  amCalls : Nat
  deriving Repr

/-- The email-resolution block of the row loop (`pipeline.go` lines 106–117):
cache first, then `FindEmailAnymailByCompany`, caching hits and misses alike.
Returns `some (email, conf)` exactly when the Go `err` is nil. -/
def pipelineResolveEmail (env : AnymailEnv) (cache : EmailCache) (now : Nat)
    (name company : String) : Option (String × Rat) × EmailCache × Nat :=
  match GetCachedEmail cache now name company with
  | (email, conf, true) => (some (email, conf), cache, 0)
  | (_, _, false) =>
    let r := FindEmailAnymailByCompany env cache now name company
    match r.result with
    | .ok (email, conf) =>
      (some (email, conf), SetCachedEmail r.cache now name company email conf none, r.netCalls)
    | .error e => (none, SetCachedEmail r.cache now name company "" 0 (some e), r.netCalls)

/-- The `row.Email` / `row.Confidence` assignment: only a nil-error, non-empty
resolution is written onto the row. -/
def rowEmailFields (res : Option (String × Rat)) : String × Rat :=
  match res with
  | some (email, conf) => if email = "" then ("", 0) else (email, conf)
  | none => ("", 0)

/-- The inner loop over the search results of one query (`pipeline.go` lines
65–122): cap check, profile-link filter, dedup by link, parse, relevance
cross-check, optional email resolution, row emission. -/
def pipeResults (env : PipelineEnv) (now : Nat) (company title : String)
    (findEmails : Bool) (maxPerCompany : Int) :
    List SerpResult → PipeState → Int → PipeState × Int
  | [], st, cnt => (st, cnt)
  | r :: rs, st, cnt =>
    if maxPerCompany ≤ cnt then (st, cnt)
    else
      let link := goTrim r.Link
      if ¬ goContains link "linkedin.com/in/" then
        pipeResults env now company title findEmails maxPerCompany rs st cnt
      else if link ∈ st.seen then
        pipeResults env now company title findEmails maxPerCompany rs st cnt
      else
        let st := { st with seen := link :: st.seen }
        let p := parseLinkedInTitle r.Title r.Snippet company
        if p.1 = "" then
          pipeResults env now company title findEmails maxPerCompany rs st cnt
        else
          let combined := goToLower (r.Title ++ " " ++ r.Snippet)
          if ¬ goContains combined (goToLower company) ∧ ¬ goContains combined (goToLower title) then
            pipeResults env now company title findEmails maxPerCompany rs st cnt
          else
            let em :=
              if findEmails ∧ p.1 ≠ "" ∧ p.2.2 ≠ "" then
                pipelineResolveEmail env.anymail st.cache now p.1 p.2.2
              else (none, st.cache, 0)
            let ef := rowEmailFields em.1
            let row : PersonRow :=
              ⟨p.1, p.2.1, p.2.2, link, ef.1, ef.2, "LinkedIn/SerpAPI"⟩
            let st := { st with
              out := st.out ++ [row]
              cache := em.2.1
              amCalls := st.amCalls + em.2.2 }
            pipeResults env now company title findEmails maxPerCompany rs st (cnt + 1)

/-- The loop over role queries for one company (`pipeline.go` lines 48–123). -/
def pipeTitles (env : PipelineEnv) (now : Nat) (company : String)
    (findEmails : Bool) (maxPerCompany : Int) :
    List String → PipeState → Int → PipeState
  | [], st, _ => st
  | title :: ts, st, cnt =>
    if maxPerCompany ≤ cnt then st
    else
      let q := SmartLinkedInQuery title company
      match env.serp q 5 with
      | .error _ =>
        pipeTitles env now company findEmails maxPerCompany ts
          { st with serpCalls := st.serpCalls + 1 } cnt
      | .ok results =>
        let r := pipeResults env now company title findEmails maxPerCompany results
          { st with serpCalls := st.serpCalls + 1 } cnt
        pipeTitles env now company findEmails maxPerCompany ts r.1 r.2

/-- The outer loop over companies (`pipeline.go` lines 40–124): trims each
name, silently skips empty ones, and resets the per-company counter. -/
def pipeCompanies (env : PipelineEnv) (now : Nat) (jobTitles : List String)
    (findEmails : Bool) (maxPerCompany : Int) :
    List String → PipeState → PipeState
  | [], st => st
  | company :: cs, st =>
    let company := goTrim company
    if company = "" then pipeCompanies env now jobTitles findEmails maxPerCompany cs st
    else
      pipeCompanies env now jobTitles findEmails maxPerCompany cs
        (pipeTitles env now company findEmails maxPerCompany jobTitles st 0)

/-- `FindPeopleAtCompanies` with its argument defaults; the Go function
returns `out`, available here as `.out` of the final state. -/
def FindPeopleAtCompanies (env : PipelineEnv) (cache : EmailCache) (now : Nat)
    (companies jobTitles : List String) (maxPerCompany : Int) (findEmails : Bool) :
    PipeState :=
  let jobTitles := if jobTitles = [] then ["director"] else jobTitles
  let maxPerCompany := if maxPerCompany = 0 then 5 else maxPerCompany
  pipeCompanies env now jobTitles findEmails maxPerCompany companies ⟨[], [], cache, 0, 0⟩

/-! ## Outreach handler (`api/handlers.go`, `outreachRunHandler`, lines 230–250) -/

structure OutreachRunRequest where
  Companies : List String
  JobTitles : List String
  MaxPerCompany : Int
  deriving Repr

inductive OutreachResp where
  /-- 400: "No companies provided." -/
  | badRequest (msg : String)
  /-- 200 with `results` and `people_added` -/
  | ok (results : List PersonRow) (peopleAdded : Nat)
  deriving Repr, DecidableEq

/-- `outreachRunHandler` after a successful JSON bind: rejects an empty
companies list, applies the job-title and cap defaults, and runs the pipeline
with email finding on.  Returns the response together with the provider-call
counts incurred. -/
def outreachRunHandler (env : PipelineEnv) (cache : EmailCache) (now : Nat)
    (req : OutreachRunRequest) : OutreachResp × Nat × Nat :=
  if req.Companies = [] then (.badRequest "No companies provided.", 0, 0)
  else
    let jobTitles := if req.JobTitles = [] then ["Director", "Partner"] else req.JobTitles
    let maxPerCompany := if req.MaxPerCompany = 0 then 5 else req.MaxPerCompany
    let st := FindPeopleAtCompanies env cache now req.Companies jobTitles maxPerCompany true
    (.ok st.out st.out.length, st.serpCalls, st.amCalls)

/-! ## Spec-side definitions and proof helpers -/

/-- Whether a provider call result carries a surfaced value. -/
def resultIsOk (r : Except ResolveErr (String × Rat)) : Bool :=
  match r with
  | .ok _ => true
  | .error _ => false

/-- Whether the Anymail step of the person waterfall surfaces an email
(the Go condition `err == nil && email != ""`). -/
def anymailSurfaced (r : Except ResolveErr (String × Rat)) : Bool :=
  match r with
  | .ok (email, _) => email ≠ ""
  | .error _ => false

/-- Organization normalization as the amended claim C7 words it: strip each of
the legal suffixes PLC, Ltd, Limited, LLC, Inc, Corp, Group, Holdings once, in
this order, then trim surrounding whitespace; no fallback when the result is
empty. -/
def specNormalizeOrgC7 (company : String) : String :=
  goTrim (goTrimSuffix (goTrimSuffix (goTrimSuffix (goTrimSuffix (goTrimSuffix (goTrimSuffix
    (goTrimSuffix (goTrimSuffix company " PLC") " Ltd") " Limited") " LLC") " Inc")
    " Corp") " Group") " Holdings")

/-- The query shape the amended claim C7 describes: the quoted role, the
quoted normalized organization, and the LinkedIn profile-page site
restriction. -/
def specQueryC7 (jobTitle company : String) : String :=
  "\"" ++ jobTitle ++ "\" \"" ++ specNormalizeOrgC7 company ++ "\" site:linkedin.com/in"

/-- The snippet recovery exactly as claim C8 words it: locate the word "at",
take the following clause up to the first period, and accept it when non-empty
and within the 60-character bound; otherwise fall back. -/
def claimSnippetOrgC8 (snippet fallbackCompany : String) : String :=
  match goIndex (goToLower snippet) " at " with
  | none => fallbackCompany
  | some idx =>
    let candidate := goTrim (strDrop snippet (idx + 4))
    let candidate :=
      match goIndex candidate "." with
      | some dot => goTrim (strTake candidate dot)
      | none => candidate
    if candidate ≠ "" ∧ candidate.length ≤ 60 then candidate else fallbackCompany

/-- The snippet recovery as the amended claim C8 words it: for a non-empty
snippet, locate `" at "` case-insensitively, trim the following text, cut at
the first period only when that period occurs within the first 40 characters,
and accept the candidate only when it is non-empty and shorter than 60
characters; otherwise the fallback organization is used. -/
def amendedSnippetOrgC8 (snippet fallbackCompany : String) : String :=
  if snippet = "" then fallbackCompany
  else
    match goIndex (goToLower snippet) " at " with
    | none => fallbackCompany
    | some idx =>
      let candidate := goTrim (strDrop snippet (idx + 4))
      let candidate :=
        match goIndex candidate "." with
        | some dot => if dot < 40 then goTrim (strTake candidate dot) else candidate
        | none => candidate
      if candidate ≠ "" ∧ candidate.length < 60 then candidate else fallbackCompany

/-- Invariant of the pipeline state: every emitted row has its link recorded
in `seen`, and no two emitted rows share a link. -/
def pipeInv (st : PipeState) : Prop :=
  (∀ r ∈ st.out, r.Link ∈ st.seen) ∧ st.out.Pairwise fun a b => a.Link ≠ b.Link

/-! ### Concrete fixtures used by counterexamples and witnesses -/

/-- An Anymail environment whose person endpoint always answers
`email_status = "not_found"`. -/
def anymailNotFoundEnv : AnymailEnv :=
  ⟨"key", fun _ _ => .ok ⟨"", "not_found", "", 0, 0⟩⟩

/-- An Anymail environment with no API key configured (never reaches the
network). -/
def anymailDeadEnv : AnymailEnv :=
  ⟨"", fun _ _ => .parseErr⟩

/-- A Hunter environment that finds `jane@acme.com` with score 10
(confidence 0.10). -/
def hunterScore10Env : HunterEnv :=
  ⟨"key", fun _ _ => .ok ⟨"jane@acme.com", 10, []⟩⟩

/-- A pipeline environment whose search provider is down and whose email
provider has no key. -/
def pipeDeadEnv : PipelineEnv :=
  ⟨fun _ _ => .error "provider down", anymailDeadEnv⟩

/-! # Theorems -/

/-! ## Shared lemmas -/

/-- A lookup through a key-equal fresh write returns the stored email and
confidence (discarding the stored error) without touching the network. -/
theorem find_after_set (env : AnymailEnv) (cache : EmailCache) (now now2 : Nat)
    (n1 c1 n2 c2 email : String) (conf : Rat) (err : Option ResolveErr)
    (hkey : cacheKey n1 c1 = cacheKey n2 c2) (hfresh : now2 - now ≤ cacheTTL) :
    FindEmailAnymailByCompany env (SetCachedEmail cache now n1 c1 email conf err) now2 n2 c2
      = ⟨.ok (email, conf), SetCachedEmail cache now n1 c1 email conf err, 0⟩ := by
  have hlook :
      GetCachedEmail (SetCachedEmail cache now n1 c1 email conf err) now2 n2 c2
        = (email, conf, true) := by
    simp [GetCachedEmail, SetCachedEmail, lookupCache, hkey, Nat.not_lt.mpr hfresh]
  simp [FindEmailAnymailByCompany, hlook]

/-! ## Claim C3 — headcount band boundaries -/

/-- Claim C3 counterexample: the primary `GetTargetRolesByHeadcount` returns
the smallest band (not `none`) at headcount 24, and returns the `{HR Director}`
band (not the mid band) at headcount 200; the second version in the file
returns a role set without "Founder" for the 25–49 band.  Each of these
contradicts the claim as stated. -/
theorem claim_C3_counterexample :
    GetTargetRolesByHeadcount 24 = some ⟨"< 50", ["CEO", "Founder", "Partner", "CIO"]⟩
    ∧ GetTargetRolesByHeadcount 200 = some ⟨"50-200", ["HR Director"]⟩
    ∧ GetTargetRolesByHeadcountAlt 30 = some ⟨"Micro (25–49)", ["CEO", "Partner", "CIO"]⟩ := by
  refine ⟨?_, ?_, ?_⟩ <;> decide

/-- Claim C3 (amended): for the primary `GetTargetRolesByHeadcount`,
the result is `none` exactly when headcount > 500; every headcount < 50
(with no lower cutoff) gets the small band with roles
{CEO, Founder, Partner, CIO}; 50 ≤ headcount ≤ 200 gets {HR Director};
200 < headcount ≤ 500 gets {Early Careers Head, HR Director}.  In particular
bandFor(49) and bandFor(50) fall in different bands, bandFor(500) is in scope
and bandFor(501) is `none`, but bandFor(24) is a band rather than `none`. -/
theorem claim_C3_amended (h : Int) :
    (GetTargetRolesByHeadcount h = none ↔ 500 < h)
    ∧ (h < 50 →
        GetTargetRolesByHeadcount h = some ⟨"< 50", ["CEO", "Founder", "Partner", "CIO"]⟩)
    ∧ (50 ≤ h → h ≤ 200 →
        GetTargetRolesByHeadcount h = some ⟨"50-200", ["HR Director"]⟩)
    ∧ (200 < h → h ≤ 500 →
        GetTargetRolesByHeadcount h = some ⟨"200-500", ["Early Careers Head", "HR Director"]⟩) := by
  unfold GetTargetRolesByHeadcount
  refine ⟨?_, ?_, ?_, ?_⟩ <;> intros <;> split_ifs <;> simp_all <;> omega

/-- Witness for `claim_C3_amended` at headcounts 24 and 501. -/
theorem claim_C3_amended_witness :
    GetTargetRolesByHeadcount 24 = some ⟨"< 50", ["CEO", "Founder", "Partner", "CIO"]⟩
    ∧ GetTargetRolesByHeadcount 501 = none :=
  ⟨(claim_C3_amended 24).2.1 (by decide), (claim_C3_amended 501).1.mpr (by decide)⟩

/-! ## Claim C7 — query builder normalization -/

/-- Claim C7 counterexample: for the organization name " Ltd", suffix
stripping yields the empty string, and the built query contains the empty
quoted organization — not the original name unmodified. -/
theorem claim_C7_counterexample :
    specNormalizeOrgC7 " Ltd" = ""
    ∧ SmartLinkedInQuery "CEO" " Ltd" = "\"CEO\" \"\" site:linkedin.com/in"
    ∧ SmartLinkedInQuery "CEO" " Ltd" ≠ "\"CEO\" \" Ltd\" site:linkedin.com/in" := by
  refine ⟨?_, ?_, ?_⟩ <;> decide

/-- Claim C7 (amended): `SmartLinkedInQuery` returns exactly the single query
combining the quoted role, the quoted organization normalized by stripping the
legal suffixes PLC, Ltd, Limited, LLC, Inc, Corp, Group, Holdings (each once,
in that order) plus surrounding whitespace, and the
`site:linkedin.com/in` profile-page restriction; there is no empty-string
fallback — when stripping yields the empty string the query carries an empty
quoted organization. -/
theorem claim_C7_amended (jobTitle company : String) :
    SmartLinkedInQuery jobTitle company = specQueryC7 jobTitle company := by
  simp only [SmartLinkedInQuery, specQueryC7, specNormalizeOrgC7, List.foldl]

/-! ## Claim C10 — negative-cache semantics -/

/-- Claim C10 (confirmed): after any resolution outcome `(email, conf, err)`
is written to the cache, every lookup under the same case-insensitively
normalized key within the TTL reports found and returns the stored email and
confidence, discarding the stored error; `FindEmailAnymailByCompany` returns
it as a nil-error result with no network call — in particular a cached failed
resolution comes back as `ok ("", 0)`. -/
theorem claim_C10 (env : AnymailEnv) (cache : EmailCache) (now now2 : Nat)
    (n1 c1 n2 c2 email : String) (conf : Rat) (err : Option ResolveErr)
    (hkey : cacheKey n1 c1 = cacheKey n2 c2) (hfresh : now2 - now ≤ cacheTTL) :
    FindEmailAnymailByCompany env (SetCachedEmail cache now n1 c1 email conf err) now2 n2 c2
      = ⟨.ok (email, conf), SetCachedEmail cache now n1 c1 email conf err, 0⟩ :=
  find_after_set env cache now now2 n1 c1 n2 c2 email conf err hkey hfresh

/-- Witness for `claim_C10`: a failed resolution cached under
"Jane Doe"/"Acme" is found one hour later under the differently-cased key
"JANE DOE "/" acme" and returned as a nil-error empty result. -/
theorem claim_C10_witness :
    FindEmailAnymailByCompany anymailNotFoundEnv
        (SetCachedEmail [] 0 "Jane Doe" "Acme" "" 0 (some .anymailNotFound)) 3600 "JANE DOE " " acme"
      = ⟨.ok ("", 0), SetCachedEmail [] 0 "Jane Doe" "Acme" "" 0 (some .anymailNotFound), 0⟩ :=
  claim_C10 anymailNotFoundEnv [] 0 3600 "Jane Doe" "Acme" "JANE DOE " " acme" "" 0
    (some .anymailNotFound) (by decide) (by decide)

/-! ## Claim C4 — cache idempotence of single-person resolution -/

/-- Claim C4 counterexample: with a provider that answers "not_found", two
calls to `FindEmailAnymailByCompany` with the same arguments at the same
instant each issue a network call — two in total, where the claim allows at
most one — because the failed first attempt writes no cache entry. -/
theorem claim_C4_counterexample :
    (FindEmailAnymailByCompany anymailNotFoundEnv [] 0 "Jane Doe" "Acme").netCalls = 1
    ∧ (FindEmailAnymailByCompany anymailNotFoundEnv
        (FindEmailAnymailByCompany anymailNotFoundEnv [] 0 "Jane Doe" "Acme").cache
        0 "Jane Doe" "Acme").netCalls = 1
    ∧ (FindEmailAnymailByCompany anymailNotFoundEnv [] 0 "Jane Doe" "Acme").cache = [] := by
  refine ⟨?_, ?_, ?_⟩ <;> decide

/-- Claim C4 (amended): cache idempotence holds for successful resolutions:
when a call to `FindEmailAnymailByCompany` resolves an email via a network
call, a second call for the same `(fullName, organization)` within the TTL
issues no network call and returns the same result, whatever the provider
would answer; failed attempts write no cache entry inside this function, so
only the success path is idempotent. -/
theorem claim_C4_amended (env env2 : AnymailEnv) (cache : EmailCache) (now now2 : Nat)
    (fullName companyName email : String) (conf : Rat)
    (hok : (FindEmailAnymailByCompany env cache now fullName companyName).result
      = .ok (email, conf))
    (hnet : (FindEmailAnymailByCompany env cache now fullName companyName).netCalls = 1)
    (hfresh : now2 - now ≤ cacheTTL) :
    FindEmailAnymailByCompany env2
        (FindEmailAnymailByCompany env cache now fullName companyName).cache
        now2 fullName companyName
      = ⟨.ok (email, conf),
          (FindEmailAnymailByCompany env cache now fullName companyName).cache, 0⟩ := by
  have hcache : (FindEmailAnymailByCompany env cache now fullName companyName).cache
      = SetCachedEmail cache now fullName companyName email conf none := by
    rcases hgc : GetCachedEmail cache now fullName companyName with ⟨e, c, b⟩
    cases b with
    | true =>
      rw [FindEmailAnymailByCompany, hgc] at hnet
      simp at hnet
    | false =>
      rw [FindEmailAnymailByCompany, hgc] at hok ⊢
      by_cases hkey : env.apiKey = ""
      · rw [FindEmailAnymailByCompany, hgc] at hnet
        simp [hkey] at hnet
      · simp only [if_neg hkey] at hok ⊢
        cases hnr : anymailNetResult (env.response fullName companyName) with
        | error e2 => rw [hnr] at hok; simp at hok
        | ok pair =>
          obtain ⟨em, cf⟩ := pair
          rw [hnr] at hok
          simp at hok
          obtain ⟨he, hc⟩ := hok
          subst he; subst hc
          rfl
  rw [hcache]
  exact find_after_set env2 cache now now2 fullName companyName fullName companyName
    email conf none rfl hfresh

/-- Witness for `claim_C4_amended`: a successful first resolution (score 0.9)
is served from the cache one hour later with no network call, even against an
environment whose provider would answer "not_found". -/
theorem claim_C4_amended_witness :
    FindEmailAnymailByCompany anymailNotFoundEnv
        (FindEmailAnymailByCompany ⟨"key", fun _ _ => .ok ⟨"Jane@Acme.com", "valid", "", mkRat 9 10, 0⟩⟩
          [] 0 "Jane Doe" "Acme").cache
        3600 "Jane Doe" "Acme"
      = ⟨.ok ("jane@acme.com", mkRat 9 10),
          (FindEmailAnymailByCompany ⟨"key", fun _ _ => .ok ⟨"Jane@Acme.com", "valid", "", mkRat 9 10, 0⟩⟩
            [] 0 "Jane Doe" "Acme").cache, 0⟩ :=
  claim_C4_amended ⟨"key", fun _ _ => .ok ⟨"Jane@Acme.com", "valid", "", mkRat 9 10, 0⟩⟩
    anymailNotFoundEnv [] 0 3600 "Jane Doe" "Acme" "jane@acme.com" (mkRat 9 10)
    (by rfl) (by rfl) (by decide)

/-! ## Claim C5 — waterfall ordering -/

/-- Claim C5 (confirmed): in single-person mode, whenever the Anymail step
returns a successful result with a non-empty email, the Hunter provider is
never called for that request. -/
theorem claim_C5 (aEnv : AnymailEnv) (hEnv : HunterEnv) (cache : EmailCache) (now : Nat)
    (fullName company email : String) (conf : Rat)
    (hok : (FindEmailAnymailByCompany aEnv cache now fullName company).result = .ok (email, conf))
    (hne : email ≠ "") :
    (findEmailPersonHandler aEnv hEnv cache now fullName company).hunterCalls = 0 := by
  rw [findEmailPersonHandler]
  by_cases h400 : fullName = "" ∨ company = ""
  · simp [h400]
  · simp only [h400, if_false, if_neg h400]
    rw [hok]
    simp [hne]

/-- Witness for `claim_C5`: a cached successful resolution makes the Anymail
step succeed, and the handler issues zero Hunter calls. -/
theorem claim_C5_witness :
    (findEmailPersonHandler anymailDeadEnv hunterScore10Env
        (SetCachedEmail [] 0 "Jane Doe" "Acme" "jane@acme.com" (mkRat 9 10) none)
        0 "Jane Doe" "Acme").hunterCalls = 0 :=
  claim_C5 anymailDeadEnv hunterScore10Env
    (SetCachedEmail [] 0 "Jane Doe" "Acme" "jane@acme.com" (mkRat 9 10) none)
    0 "Jane Doe" "Acme" "jane@acme.com" (mkRat 9 10) (by rfl) (by decide)

/-! ## Claim C1 — confidence threshold enforcement -/

/-- A parsed Anymail response below the 0.5 threshold never yields a
successful result. -/
theorem anymailHandleOK_lowConf (r : AnymailResp)
    (h : anymailEffectiveConf r < mkRat 1 2) :
    ∃ e, anymailHandleOK r = .error e := by
  simp only [anymailHandleOK]
  split_ifs <;> exact ⟨_, rfl⟩

/-- The Hunter fallback surfaces any non-empty email the provider returns,
with confidence `score / 100` and no threshold check. -/
theorem findEmailHunterPhase_success (hEnv : HunterEnv) (cache : EmailCache) (now : Nat)
    (fullName company : String) (aCalls : Nat) (hr : HunterResp)
    (hmiss : (GetCachedEmail cache now fullName company).2.2 = false)
    (hkey : hEnv.apiKey ≠ "") (hfields : goFields fullName ≠ [])
    (hresp : hEnv.response fullName company = .ok hr)
    (herrs : hr.Errors = []) (hemail : hr.Email ≠ "") :
    (findEmailHunterPhase hEnv cache now fullName company aCalls).resp
      = .success hr.Email (Rat.divInt hr.Score 100) "Hunter.io" := by
  have hh : (FindEmailHunter hEnv cache now fullName company).result
      = .ok (hr.Email, Rat.divInt hr.Score 100) := by
    rcases hgc : GetCachedEmail cache now fullName company with ⟨e, c, b⟩
    rw [hgc] at hmiss
    simp at hmiss
    subst hmiss
    rw [FindEmailHunter, hgc]
    simp only [if_neg hkey, if_neg hfields, hresp, herrs]
    simp [hemail]
  rw [findEmailHunterPhase, hh]
  simp [hemail]

/-- Claim C1 (amended): the 0.5 threshold is enforced for the Primary
provider only — a fresh Anymail response with effective confidence < 0.5 is
never surfaced by `FindEmailAnymailByCompany`, so the waterfall proceeds to
Hunter or returns unresolved; the Secondary provider enforces no threshold —
whenever the Anymail step surfaces nothing and Hunter answers with a
non-empty email, the handler surfaces that email with confidence
`score / 100`, whatever the score. -/
theorem claim_C1_amended :
    (∀ (env : AnymailEnv) (cache : EmailCache) (now : Nat) (fullName company : String)
        (r : AnymailResp),
        (GetCachedEmail cache now fullName company).2.2 = false →
        env.response fullName company = .ok r →
        anymailEffectiveConf r < mkRat 1 2 →
        resultIsOk (FindEmailAnymailByCompany env cache now fullName company).result = false)
    ∧ (∀ (aEnv : AnymailEnv) (hEnv : HunterEnv) (cache : EmailCache) (now : Nat)
        (fullName company : String) (hr : HunterResp),
        fullName ≠ "" → company ≠ "" →
        anymailSurfaced (FindEmailAnymailByCompany aEnv cache now fullName company).result
          = false →
        (GetCachedEmail (FindEmailAnymailByCompany aEnv cache now fullName company).cache
          now fullName company).2.2 = false →
        hEnv.apiKey ≠ "" → goFields fullName ≠ [] →
        hEnv.response fullName company = .ok hr →
        hr.Errors = [] → hr.Email ≠ "" →
        (findEmailPersonHandler aEnv hEnv cache now fullName company).resp
          = .success hr.Email (Rat.divInt hr.Score 100) "Hunter.io") := by
  constructor
  · intro env cache now fullName company r hmiss hresp hconf
    rcases hgc : GetCachedEmail cache now fullName company with ⟨e, c, b⟩
    rw [hgc] at hmiss
    simp at hmiss
    subst hmiss
    rw [FindEmailAnymailByCompany, hgc]
    by_cases hkey : env.apiKey = ""
    · simp [hkey, resultIsOk]
    · obtain ⟨e2, he2⟩ := anymailHandleOK_lowConf r hconf
      have hnr : anymailNetResult (env.response fullName company) = .error e2 := by
        rw [hresp]
        simpa [anymailNetResult] using he2
      simp only [if_neg hkey, hnr]
      simp [resultIsOk]
  · intro aEnv hEnv cache now fullName company hr hn hco hsurf hmiss hkey hfields hresp
      herrs hemail
    rw [findEmailPersonHandler]
    have h400 : ¬(fullName = "" ∨ company = "") := by simp [hn, hco]
    simp only [if_neg h400]
    cases hres : (FindEmailAnymailByCompany aEnv cache now fullName company).result with
    | error aerr =>
      exact findEmailHunterPhase_success hEnv _ now fullName company _ hr hmiss hkey
        hfields hresp herrs hemail
    | ok pair =>
      obtain ⟨ae, ac⟩ := pair
      rw [hres] at hsurf
      simp [anymailSurfaced] at hsurf
      simp only [hsurf]
      simp only [ne_eq, not_true_eq_false, if_false]
      exact findEmailHunterPhase_success hEnv _ now fullName company _ hr hmiss hkey
        hfields hresp herrs hemail

/-- Witness for `claim_C1_amended`: a below-threshold Anymail response
(score 0.2) is not surfaced, and a score-10 Hunter answer is surfaced with
confidence 0.10. -/
theorem claim_C1_amended_witness :
    resultIsOk (FindEmailAnymailByCompany
        ⟨"key", fun _ _ => .ok ⟨"low@acme.com", "valid", "", mkRat 2 10, 0⟩⟩
        [] 0 "Jane Doe" "Acme").result = false
    ∧ (findEmailPersonHandler anymailNotFoundEnv hunterScore10Env [] 0
        "Jane Doe" "Acme").resp = .success "jane@acme.com" (Rat.divInt 10 100) "Hunter.io" :=
  ⟨claim_C1_amended.1 ⟨"key", fun _ _ => .ok ⟨"low@acme.com", "valid", "", mkRat 2 10, 0⟩⟩
      [] 0 "Jane Doe" "Acme" ⟨"low@acme.com", "valid", "", mkRat 2 10, 0⟩
      (by decide) rfl (by decide),
    claim_C1_amended.2 anymailNotFoundEnv hunterScore10Env [] 0 "Jane Doe" "Acme"
      ⟨"jane@acme.com", 10, []⟩ (by decide) (by decide) (by decide) (by decide)
      (by decide) (by decide) rfl (by decide) (by decide)⟩

/-- Claim C1 counterexample: a Hunter response with confidence 0.10 — below
the 0.5 threshold — is surfaced to the caller by the single-person waterfall,
so threshold enforcement does not hold for the Secondary provider. -/
theorem claim_C1_counterexample :
    (findEmailPersonHandler anymailNotFoundEnv hunterScore10Env [] 0 "Jane Doe" "Acme").resp
      = .success "jane@acme.com" (Rat.divInt 10 100) "Hunter.io"
    ∧ Rat.divInt 10 100 < mkRat 1 2 := by
  refine ⟨?_, ?_⟩ <;> decide

/-! ## Claim C2 — risky/blacklisted suppression in bulk and decision-maker modes -/

/-- Provenance of the retention loop: every retained item is the image of an
entry whose `email_status` is "valid" or whose `valid_email` is non-empty. -/
theorem mem_anymailCollectValid (dom : String) (entries : List AnymailCompanyEntry)
    (item : AnymailLinkedInResult) (h : item ∈ anymailCollectValid dom entries) :
    ∃ e ∈ entries, (e.EmailStatus = "valid" ∨ e.ValidEmail ≠ "")
      ∧ item = anymailEntryResult dom e := by
  induction entries with
  | nil => simp [anymailCollectValid] at h
  | cons e rest ih =>
    rw [anymailCollectValid] at h
    simp only at h
    by_cases h1 : e.EmailStatus ≠ "valid" ∧ e.ValidEmail = ""
    · rw [if_pos h1] at h
      obtain ⟨e2, hmem, hkeep, heq⟩ := ih h
      exact ⟨e2, List.mem_cons_of_mem _ hmem, hkeep, heq⟩
    · rw [if_neg h1] at h
      by_cases h2 : (if e.ValidEmail = "" then e.Email else e.ValidEmail) = ""
      · rw [if_pos h2] at h
        obtain ⟨e2, hmem, hkeep, heq⟩ := ih h
        exact ⟨e2, List.mem_cons_of_mem _ hmem, hkeep, heq⟩
      · rw [if_neg h2] at h
        rcases List.mem_cons.mp h with heq | hmem
        · refine ⟨e, List.mem_cons_self e rest, ?_, heq⟩
          by_cases hv : e.EmailStatus = "valid"
          · exact Or.inl hv
          · exact Or.inr fun hvv => h1 ⟨hv, hvv⟩
        · obtain ⟨e2, hmem2, hkeep, heq⟩ := ih hmem
          exact ⟨e2, List.mem_cons_of_mem _ hmem2, hkeep, heq⟩

/-- Claim C2 (amended): in bulk and decision-maker modes every address in the
returned list comes from a response entry that was either marked "valid" or
carried a non-empty `valid_email`; hence an entry whose status is "risky" or
"blacklisted" AND whose `valid_email` is empty never contributes an address,
even when its raw `email` string is non-empty — but a risky or blacklisted
entry with a non-empty `valid_email` IS retained. -/
theorem claim_C2_amended :
    (∀ (env : AnymailCompanyEnv) (dom : String) (entries : List AnymailCompanyEntry)
        (res : List AnymailLinkedInResult),
        env.outcome = .ok entries →
        FindEmailsAnymailByCompanyDomain env dom = .ok res →
        ∀ item ∈ res, ∃ e ∈ entries, (e.EmailStatus = "valid" ∨ e.ValidEmail ≠ "")
          ∧ item = anymailEntryResult dom e)
    ∧ (∀ (env : AnymailDMEnv) (dom roles : String) (entries : List AnymailCompanyEntry)
        (res : List AnymailLinkedInResult),
        env.outcome ((goSplitComma roles).map goTrim) = .ok entries →
        FindDecisionMakerAnymail env dom roles = .ok res →
        ∀ item ∈ res, ∃ e ∈ entries, (e.EmailStatus = "valid" ∨ e.ValidEmail ≠ "")
          ∧ item = anymailEntryResult dom e) := by
  constructor
  · intro env dom entries res hout hres item hitem
    rw [FindEmailsAnymailByCompanyDomain] at hres
    by_cases hkey : env.apiKey = ""
    · rw [if_pos hkey] at hres
      exact absurd hres (by simp)
    · rw [if_neg hkey, hout] at hres
      simp only at hres
      by_cases hemp : anymailCollectValid dom entries = []
      · rw [if_pos hemp] at hres
        exact absurd hres (by simp)
      · rw [if_neg hemp] at hres
        simp only [Except.ok.injEq] at hres
        subst hres
        exact mem_anymailCollectValid dom entries item hitem
  · intro env dom roles entries res hout hres item hitem
    rw [FindDecisionMakerAnymail] at hres
    by_cases hkey : env.apiKey = ""
    · rw [if_pos hkey] at hres
      exact absurd hres (by simp)
    · rw [if_neg hkey] at hres
      simp only at hres
      rw [hout] at hres
      simp only at hres
      by_cases hemp : anymailCollectValid dom entries = []
      · rw [if_pos hemp] at hres
        exact absurd hres (by simp)
      · rw [if_neg hemp] at hres
        simp only [Except.ok.injEq] at hres
        subst hres
        exact mem_anymailCollectValid dom entries item hitem

/-- Witness for `claim_C2_amended`: a concrete "valid" entry is retained and
traced back to itself. -/
theorem claim_C2_amended_witness :
    ∃ e ∈ [(⟨"a@b.com", "valid", "", "Eng", "Al"⟩ : AnymailCompanyEntry)],
      (e.EmailStatus = "valid" ∨ e.ValidEmail ≠ "")
      ∧ (⟨"a@b.com", "valid", "Al", "Eng", "acme.com", "a@b.com"⟩ : AnymailLinkedInResult)
          = anymailEntryResult "acme.com" e :=
  claim_C2_amended.1 ⟨"key", .ok [⟨"a@b.com", "valid", "", "Eng", "Al"⟩]⟩ "acme.com"
    [⟨"a@b.com", "valid", "", "Eng", "Al"⟩]
    [⟨"a@b.com", "valid", "Al", "Eng", "acme.com", "a@b.com"⟩]
    rfl rfl ⟨"a@b.com", "valid", "Al", "Eng", "acme.com", "a@b.com"⟩ (by decide)

/-- Claim C2 counterexample: a bulk-mode response entry with status "risky"
and a non-empty `valid_email` is retained — its address appears in the list
returned to the caller, contradicting the claim. -/
theorem claim_C2_counterexample :
    FindEmailsAnymailByCompanyDomain ⟨"key", .ok [⟨"", "risky", "V@B.com", "CTO", "Vic"⟩]⟩
        "acme.com"
      = .ok [⟨"v@b.com", "risky", "Vic", "CTO", "acme.com", "V@B.com"⟩]
    ∧ ("v@b.com" : String) ≠ "" :=
  ⟨rfl, by decide⟩

/-! ## Claim C8 — snippet fallback bounds of the parser -/

/-- The amended-claim formulation coincides with the embedded code fallback
for non-empty snippets and with the fallback organization for empty ones. -/
theorem amendedSnippetOrgC8_eq (snippet fallbackCompany : String) :
    amendedSnippetOrgC8 snippet fallbackCompany
      = if snippet = "" then fallbackCompany else snippetFallback snippet fallbackCompany := by
  by_cases hs : snippet = "" <;> simp [amendedSnippetOrgC8, snippetFallback, hs]

/-- Claim C8 (amended): whenever the title analysis leaves the organization at
the fallback value, `parseLinkedInTitle` recovers the organization from the
snippet by locating " at " case-insensitively, truncating at the first period
only when that period lies within the first 40 characters, and accepting the
candidate only when it is non-empty and shorter than 60 characters — longer
candidates are rejected whole (not truncated to 60), in which case the
fallback organization argument is kept; the final " | LinkedIn" strip then
applies. -/
theorem claim_C8_amended (titleStr snippet fallbackCompany : String)
    (h : (parseTitlePhase titleStr fallbackCompany).2.2 = fallbackCompany) :
    (parseLinkedInTitle titleStr snippet fallbackCompany).2.2
      = goTrimSuffix (goTrim (amendedSnippetOrgC8 snippet fallbackCompany)) " | LinkedIn" := by
  rw [amendedSnippetOrgC8_eq]
  by_cases hs : snippet = "" <;>
    simp [parseLinkedInTitle, h, hs]

/-- Witness for `claim_C8_amended` on a concrete bare-name title and a
snippet with an early period. -/
theorem claim_C8_amended_witness :
    (parseTitlePhase "John Smith" "Fallback Inc").2.2 = "Fallback Inc"
    ∧ (parseLinkedInTitle "John Smith" "He is at Acme Widgets. Leading firm."
        "Fallback Inc").2.2
      = goTrimSuffix (goTrim (amendedSnippetOrgC8 "He is at Acme Widgets. Leading firm."
          "Fallback Inc")) " | LinkedIn" :=
  ⟨by decide,
    claim_C8_amended "John Smith" "He is at Acme Widgets. Leading firm." "Fallback Inc"
      (by decide)⟩

/-- Claim C8 counterexample: in a snippet whose first period after " at "
lies beyond the first 40 characters and whose candidate clause runs to 60+
characters, the code keeps the fallback organization, while the claim
prescribes the clause up to the first period (here 44 characters, within the
60-character bound). -/
theorem claim_C8_counterexample :
    claimSnippetOrgC8
        "Jane works at Amazing Example Company Of Great Distinction. It is a very well known firm in its sector."
        "Acme"
      = "Amazing Example Company Of Great Distinction"
    ∧ parseLinkedInTitle "Jane Doe"
        "Jane works at Amazing Example Company Of Great Distinction. It is a very well known firm in its sector."
        "Acme"
      = ("Jane Doe", "", "Acme")
    ∧ ("Amazing Example Company Of Great Distinction" : String) ≠ "Acme" := by
  refine ⟨?_, ?_, ?_⟩ <;> decide

/-! ## Claim C9 — empty-organization handling -/

/-- Claim C9 counterexample: an invocation whose single organization argument
is whitespace-only is not rejected as a caller-input error: the handler
answers 200 with an empty result list, the empty name is silently skipped, and
no provider call is made. -/
theorem claim_C9_counterexample :
    outreachRunHandler pipeDeadEnv [] 0 ⟨[" "], ["Director"], 5⟩ = (.ok [] 0, 0, 0)
    ∧ (OutreachResp.ok [] 0 ≠ .badRequest "No companies provided.") :=
  ⟨rfl, by decide⟩

/-- Claim C9 (amended): an invocation with an empty companies LIST is
rejected as a caller-input error before any provider call; an individual
organization name that trims to the empty string inside a non-empty list is
silently skipped — the pipeline issues no search- or email-provider call for
it and returns an empty result, not an error. -/
theorem claim_C9_amended :
    (∀ (env : PipelineEnv) (cache : EmailCache) (now : Nat) (req : OutreachRunRequest),
        req.Companies = [] →
        outreachRunHandler env cache now req = (.badRequest "No companies provided.", 0, 0))
    ∧ (∀ (env : PipelineEnv) (cache : EmailCache) (now : Nat) (company : String)
        (jobTitles : List String) (maxPerCompany : Int) (findEmails : Bool),
        goTrim company = "" →
        FindPeopleAtCompanies env cache now [company] jobTitles maxPerCompany findEmails
          = ⟨[], [], cache, 0, 0⟩) := by
  constructor
  · intro env cache now req h
    rw [outreachRunHandler, if_pos h]
  · intro env cache now company jobTitles maxPerCompany findEmails h
    simp only [FindPeopleAtCompanies]
    rw [pipeCompanies, h, if_pos rfl, pipeCompanies]

/-- Witness for `claim_C9_amended` at an empty request and a whitespace-only
company name. -/
theorem claim_C9_amended_witness :
    outreachRunHandler pipeDeadEnv [] 0 ⟨[], [], 0⟩ = (.badRequest "No companies provided.", 0, 0)
    ∧ FindPeopleAtCompanies pipeDeadEnv [] 0 ["  "] [] 0 true = ⟨[], [], [], 0, 0⟩ :=
  ⟨claim_C9_amended.1 pipeDeadEnv [] 0 ⟨[], [], 0⟩ rfl,
    claim_C9_amended.2 pipeDeadEnv [] 0 "  " [] 0 true (by decide)⟩

/-! ## Claim C6 — dedup invariant of the pipeline -/

/-- Extending the seen set (and replacing cache or counters) preserves the
invariant. -/
theorem pipeInv_of_seenCons (st : PipeState) (x : String) (c : EmailCache) (sc ac : Nat)
    (h : pipeInv st) : pipeInv ⟨x :: st.seen, st.out, c, sc, ac⟩ :=
  ⟨fun r hr => List.mem_cons_of_mem _ (h.1 r hr), h.2⟩

/-- Appending a row whose link was not yet seen, while recording that link,
preserves the invariant. -/
theorem pipeInv_append (st : PipeState) (link : String) (row : PersonRow) (c : EmailCache)
    (sc ac : Nat) (hlink : row.Link = link) (hnot : link ∉ st.seen) (h : pipeInv st) :
    pipeInv ⟨link :: st.seen, st.out ++ [row], c, sc, ac⟩ := by
  constructor
  · intro r hr
    rcases List.mem_append.mp hr with hr1 | hr2
    · exact List.mem_cons_of_mem _ (h.1 r hr1)
    · simp only [List.mem_singleton] at hr2
      subst hr2
      rw [hlink]
      exact List.mem_cons_self _ _
  · refine List.pairwise_append.mpr ⟨h.2, List.pairwise_singleton _ _, ?_⟩
    intro a ha b hb
    simp only [List.mem_singleton] at hb
    subst hb
    rw [hlink]
    exact fun hEq => hnot (hEq ▸ h.1 a ha)

/-- The result loop preserves the invariant. -/
theorem pipeResults_inv (env : PipelineEnv) (now : Nat) (company title : String)
    (findEmails : Bool) (maxPerCompany : Int) :
    ∀ (rs : List SerpResult) (st : PipeState) (cnt : Int), pipeInv st →
      pipeInv (pipeResults env now company title findEmails maxPerCompany rs st cnt).1 := by
  intro rs
  induction rs with
  | nil =>
    intro st cnt h
    rw [pipeResults]
    exact h
  | cons r rs ih =>
    intro st cnt h
    simp only [pipeResults]
    split_ifs with h1 h2 h3 h4 h5 <;>
      first
        | exact h
        | exact ih _ _ h
        | exact ih _ _ (pipeInv_of_seenCons _ _ _ _ _ h)
        | exact ih _ _ (pipeInv_append _ _ _ _ _ _ rfl (by assumption) h)

/-- The role-query loop preserves the invariant. -/
theorem pipeTitles_inv (env : PipelineEnv) (now : Nat) (company : String)
    (findEmails : Bool) (maxPerCompany : Int) :
    ∀ (ts : List String) (st : PipeState) (cnt : Int), pipeInv st →
      pipeInv (pipeTitles env now company findEmails maxPerCompany ts st cnt) := by
  intro ts
  induction ts with
  | nil =>
    intro st cnt h
    rw [pipeTitles]
    exact h
  | cons t ts ih =>
    intro st cnt h
    simp only [pipeTitles]
    split_ifs with h1
    · exact h
    · cases hq : env.serp (SmartLinkedInQuery t company) 5 with
      | error e => exact ih _ _ h
      | ok results =>
        exact ih _ _
          (pipeResults_inv env now company t findEmails maxPerCompany results _ _ h)

/-- The company loop preserves the invariant. -/
theorem pipeCompanies_inv (env : PipelineEnv) (now : Nat) (jobTitles : List String)
    (findEmails : Bool) (maxPerCompany : Int) :
    ∀ (cs : List String) (st : PipeState), pipeInv st →
      pipeInv (pipeCompanies env now jobTitles findEmails maxPerCompany cs st) := by
  intro cs
  induction cs with
  | nil =>
    intro st h
    rw [pipeCompanies]
    exact h
  | cons c cs ih =>
    intro st h
    simp only [pipeCompanies]
    split_ifs with h1
    · exact ih _ h
    · exact ih _ (pipeTitles_inv env now (goTrim c) findEmails maxPerCompany jobTitles _ _ h)

/-- Claim C6 (confirmed): for any list of organizations, any role set, any
cap, any cache state and any fixed search- and email-provider behavior, no
two rows in the output of `FindPeopleAtCompanies` share the same profile
link. -/
theorem claim_C6 (env : PipelineEnv) (cache : EmailCache) (now : Nat)
    (companies jobTitles : List String) (maxPerCompany : Int) (findEmails : Bool) :
    (FindPeopleAtCompanies env cache now companies jobTitles maxPerCompany
      findEmails).out.Pairwise (fun a b => a.Link ≠ b.Link) := by
  have h0 : pipeInv ⟨[], [], cache, 0, 0⟩ := ⟨by simp, List.Pairwise.nil⟩
  simp only [FindPeopleAtCompanies]
  exact (pipeCompanies_inv env now _ findEmails _ companies _ h0).2

end Vanguard
